import Mathlib

/-!
Formal verification of the door-construction module
(`core/door/door_types.py`) of the building_tool repository.

The mesh-editing kernel (bmesh) is outside the module and is treated as an
external collaborator: its operations appear either as abstract
state-transforming parameters or as small concrete models.  Geometric
utility functions imported by the module from the repository's `utils`
package are not part of the given sources; where a claim needs one it is
modelled from the specification and marked as such.

All coordinates are exact rationals.
-/

namespace DoorTypes

/-- A 3-D vector with exact rational coordinates (models `mathutils.Vector`). -/
structure Vec3 where
  x : ℚ
  y : ℚ
  z : ℚ
  deriving DecidableEq, Repr

def Vec3.add (a b : Vec3) : Vec3 := ⟨a.x + b.x, a.y + b.y, a.z + b.z⟩

def Vec3.sub (a b : Vec3) : Vec3 := ⟨a.x - b.x, a.y - b.y, a.z - b.z⟩

def Vec3.smul (a : Vec3) (c : ℚ) : Vec3 := ⟨a.x * c, a.y * c, a.z * c⟩

def Vec3.neg (a : Vec3) : Vec3 := ⟨-a.x, -a.y, -a.z⟩

/-- Python `sorted(xs, key=k)` for a rational-valued key: a stable sort by `k`. -/
def sortByKey {α : Type} (l : List α) (key : α → ℚ) : List α :=
  List.insertionSort (fun a b => key a ≤ key b) l

/-- Python `min(xs, key=k)`: first element with minimal key; `none` models the
`ValueError` that `min` raises on an empty sequence. -/
def minByKey {α : Type} (l : List α) (key : α → ℚ) : Option α :=
  match l with
  | [] => none
  | a :: t => some (t.foldl (fun acc x => if key x < key acc then x else acc) a)

/-! ## Array Stage (`create_door_array`)

`subdivide_face_edges_vertical` is repository code that is not among the
given sources; it is modelled from the spec below. -/

/-- Modelled from the spec: `subdivide_face_edges_vertical` with `count - 1`
cuts produces `count` side-by-side sub-faces sharing the newly created
internal vertical edges; inner edge `i` is shared by sub-faces `i` and
`i + 1`.  Sub-faces are represented by the labels `0, …, count - 1`; this
list is the flattened `link_faces` multiset of the inner edges. -/
def innerEdgeLinkFaces (cuts : Nat) : List Nat :=
  (List.range cuts).flatMap (fun i => [i, i + 1])

/-- `create_door_array`: identity for `count ≤ 1`, otherwise the
deduplicated set of faces linked to the inner edges of the subdivision
(Python builds a set, so the output order is unspecified; `dedup`
realises one deterministic enumeration of that set). -/
def create_door_array (face : Nat) (count : Int) : List Nat :=
  if count ≤ 1 then [face]
  else (innerEdgeLinkFaces (count - 1).toNat).dedup

/-! ## Fill Dispatcher (`create_door_fill`) -/

/-- The three external fill generators. -/
inductive FillGen
  | panel
  | glassPanes
  | louver
  deriving DecidableEq, Repr

/-- Modelled from the spec: the fill-type enumeration
`{PANELS, GLASS_PANES, LOUVER, NONE}`; the string value of each member is
what the property system hands to the dispatcher (the enum definitions are
repository code not among the given sources). -/
inductive FillType
  | PANELS
  | GLASS_PANES
  | LOUVER
  | NONE
  deriving DecidableEq, Repr

/-- Modelled from the spec: string value of a fill-type enumeration member. -/
def FillType.value : FillType → String
  | .PANELS => "PANELS"
  | .GLASS_PANES => "GLASS PANES"
  | .LOUVER => "LOUVER"
  | .NONE => "NONE"

/-- `create_door_fill`: which external generator the dispatcher invokes for a
given fill-type string (`none` = no generator invoked). -/
def create_door_fill (fill_type : String) : Option FillGen :=
  if fill_type = "PANELS" then some FillGen.panel
  else if fill_type = "GLASS PANES" then some FillGen.glassPanes
  else if fill_type = "LOUVER" then some FillGen.louver
  else none

/-- `create_door_fill` acting on a mesh, with the generators abstracted: an
unrecognized fill type leaves the mesh unchanged. -/
def create_door_fill_mesh {M : Type} (applyFill : FillGen → M → M)
    (fill_type : String) (m : M) : M :=
  match create_door_fill fill_type with
  | some g => applyFill g m
  | none => m

/-! ## Batch driver (`create_door`) -/

/-- Geometry-creating actions `create_door` performs for one array face:
frame construction on the successfully split face, then fill dispatch on the
frame's result face. -/
inductive DoorEvent (α : Type)
  | frameBuilt (face : α)
  | fillDispatched (face : α)
  deriving DecidableEq, Repr

/-- Body of the inner loop of `create_door`: split the array face; on the
failure sentinel do nothing (`continue`), otherwise build the frame and
dispatch the fill. -/
def processArrayFace {α : Type} (split : α → Option α) (frame : α → α)
    (aface : α) : List (DoorEvent α) :=
  match split aface with
  | none => []
  | some f => [DoorEvent.frameBuilt f, DoorEvent.fillDispatched (frame f)]

/-- `create_door`: for each selected face, run the Array Stage, then process
each array face through split → frame → fill; the split and frame stages are
abstract parameters. -/
def create_door {α : Type} (array : α → List α) (split : α → Option α)
    (frame : α → α) (faces : List α) : List (DoorEvent α) :=
  faces.flatMap (fun face => (array face).flatMap (processArrayFace split frame))

/-! ## Mullion split (`split_face_vertical_with_offset`)

One-dimensional model along the face's horizontal axis (the `x`/`y`
coordinate selected by the face normal); a value is the horizontal
coordinate of an inner vertical edge's median. -/

/-- `tvec.normalized()` restricted to one axis: the unit direction from the
face median towards the edge median (`mathutils` normalizes the zero vector
to the zero vector). -/
def ratSign (d : ℚ) : ℚ := if d < 0 then -1 else if 0 < d then 1 else 0

/-- Modelled from the spec: `subdivide_face_edges_vertical` places `cuts`
evenly spaced vertical inner edges across a rectangular face of width `w`
centred at `center`. -/
def innerEdgeCoords (center w : ℚ) (cuts : Nat) : List ℚ :=
  (List.range cuts).map (fun k => center - w / 2 + ((k : ℚ) + 1) * w / ((cuts : ℚ) + 1))

/-- `split_face_vertical_with_offset`: subdivide, sort the inner edges by
horizontal coordinate, then translate the `i`-th edge by `offsets[i]` along
the unit vector from the face median to the edge median (edges beyond
`offsets` stay in place); returns the edges' final coordinates. -/
def split_face_vertical_with_offset (center w : ℚ) (cuts : Nat)
    (offsets : List ℚ) : List ℚ :=
  (((sortByKey (innerEdgeCoords center w cuts) (fun p => p)).zip offsets).map
      (fun p => p.1 + ratSign (p.1 - center) * p.2)) ++
    (sortByKey (innerEdgeCoords center w cuts) (fun p => p)).drop offsets.length

/-- The call made by `create_door_frame` step 3b: two cuts, both offsets
`w / 3 - frame_thickness`. -/
def frameMullionSplit (center w t : ℚ) : List ℚ :=
  split_face_vertical_with_offset center w 2 [w / 3 - t, w / 3 - t]

/-! ## Frame-ring vertex merging (lines 75–85 of `create_door_frame`) -/

/-- A mesh vertex handle: an identity plus current coordinates (Python
compares vertex handles by identity). -/
structure Vtx where
  id : Nat
  co : Vec3
  deriving DecidableEq, Repr

/-- The set comprehension of lines 77–79: all vertices reachable from the
outer top edge's vertices through one linked edge, minus the edge's own
vertices (Python builds a set; `dedup` fixes one enumeration of it). -/
def linkedOuterVerts (vertLinkEdges : Vtx → List Nat) (edgeVerts : Nat → List Vtx)
    (tv : List Vtx) : List Vtx :=
  ((tv.flatMap (fun v => (vertLinkEdges v).flatMap edgeVerts)).filter
    (fun x => decide (x ∉ tv))).dedup

/-- Line 80: the loop's iteration list — the linked vertices sorted by
vertical coordinate with the first two (the two lowest) dropped. -/
def topVertsOf (vertLinkEdges : Vtx → List Nat) (edgeVerts : Nat → List Vtx)
    (tv : List Vtx) : List Vtx :=
  (sortByKey (linkedOuterVerts vertLinkEdges edgeVerts tv) (fun v => v.co.z)).drop 2

/-- One recorded `bmesh.ops.pointmerge` call: the neighbour `upper` chosen
for the current vertex `vert`, the candidate list the choice was made from,
and the merge position `merge_co`. -/
structure MergeOp where
  upper : Vtx
  vert : Vtx
  cand : List Vtx
  pos : Vec3
  deriving DecidableEq, Repr

/-- Lines 81–85 over a live mesh state `S`: for each vertex of the iteration
list, query its linked neighbour vertices in the current state, pick the one
with the greatest vertical coordinate (`sorted(...)[-1]`, an `IndexError`
when there is none) and point-merge it with the current vertex at the
neighbour's position. -/
def mergeLoopState {S : Type} (vertLinkEdges : S → Vtx → List Nat)
    (edgeVerts : S → Nat → List Vtx) (pointMerge : S → Vtx → Vtx → Vec3 → S)
    (s : S) : List Vtx → Except String (S × List MergeOp)
  | [] => Except.ok (s, [])
  | vert :: rest =>
    ((sortByKey ((vertLinkEdges s vert).flatMap
        (fun e => (edgeVerts s e).filter (fun x => decide (x ≠ vert))))
        (fun v => v.co.z)).getLast?).elim (Except.error "IndexError")
      (fun upper =>
        Except.map
          (fun p => (p.1, (⟨upper, vert,
            (vertLinkEdges s vert).flatMap
              (fun e => (edgeVerts s e).filter (fun x => decide (x ≠ vert))),
            upper.co⟩ : MergeOp) :: p.2))
          (mergeLoopState vertLinkEdges edgeVerts pointMerge
            (pointMerge s upper vert upper.co) rest))

/-- The whole merge step (lines 75–85): compute the iteration list from the
pre-loop mesh state, then run the loop on the live state. -/
def doorFrameMergeStep {S : Type} (vertLinkEdges : S → Vtx → List Nat)
    (edgeVerts : S → Nat → List Vtx) (pointMerge : S → Vtx → Vtx → Vec3 → S)
    (s : S) (tv : List Vtx) : Except String (S × List MergeOp) :=
  mergeLoopState vertLinkEdges edgeVerts pointMerge s
    (topVertsOf (vertLinkEdges s) (edgeVerts s) tv)

/-- Concrete mesh neighbourhood used to exercise the merge step: the outer
top edge has vertices with ids 100 and 101 at height 5; the linked vertices
below it have ids 0–4 at heights 0–4, each also linked back to vertex 100
through its own edge. -/
def c3vle : Unit → Vtx → List Nat := fun _ v =>
  if v.id = 100 then [1, 2, 3] else if v.id = 101 then [4, 5] else [20 + v.id]

def c3ev : Unit → Nat → List Vtx := fun _ e =>
  if e = 1 then [⟨100, ⟨0, 0, 5⟩⟩, ⟨0, ⟨0, 0, 0⟩⟩]
  else if e = 2 then [⟨100, ⟨0, 0, 5⟩⟩, ⟨1, ⟨0, 0, 1⟩⟩]
  else if e = 3 then [⟨100, ⟨0, 0, 5⟩⟩, ⟨2, ⟨0, 0, 2⟩⟩]
  else if e = 4 then [⟨101, ⟨1, 0, 5⟩⟩, ⟨3, ⟨0, 0, 3⟩⟩]
  else if e = 5 then [⟨101, ⟨1, 0, 5⟩⟩, ⟨4, ⟨0, 0, 4⟩⟩]
  else if e = 20 then [⟨0, ⟨0, 0, 0⟩⟩, ⟨100, ⟨0, 0, 5⟩⟩]
  else if e = 21 then [⟨1, ⟨0, 0, 1⟩⟩, ⟨100, ⟨0, 0, 5⟩⟩]
  else if e = 22 then [⟨2, ⟨0, 0, 2⟩⟩, ⟨100, ⟨0, 0, 5⟩⟩]
  else if e = 23 then [⟨3, ⟨0, 0, 3⟩⟩, ⟨100, ⟨0, 0, 5⟩⟩]
  else if e = 24 then [⟨4, ⟨0, 0, 4⟩⟩, ⟨100, ⟨0, 0, 5⟩⟩]
  else []

def c3tv : List Vtx := [⟨100, ⟨0, 0, 5⟩⟩, ⟨101, ⟨1, 0, 5⟩⟩]

/-! ## Deterministic selections used by `create_door_frame` -/

/-- Line 57: `sorted(face.edges, key=median z)[:1]` — the edge list handed to
`bmesh.ops.dissolve_edges` (with `use_verts=True`). -/
def floorRemovalEdges {E : Type} (edges : List E) (medianZ : E → ℚ) : List E :=
  (sortByKey edges medianZ).take 1

/-- Line 59: `[f for f in bm.faces if f.index == len(bm.faces) - 1][-1]` —
re-acquire the merged face from the current mesh by an index query (`none`
models the `IndexError` on an empty comprehension). -/
def face_by_highest_index {F : Type} (faces : List F) (indexOf : F → Nat) : Option F :=
  (faces.filter (fun f => decide (indexOf f = faces.length - 1))).getLast?

/-- Line 74: `list(set(A) & set(B))[-1]` — the last entry of an enumeration
of the intersection set of the two mullion edges' linked faces. -/
def mullionCommonFace {F : Type} (enum : List F) : Option F :=
  enum.getLast?

/-! ## Control-flow and trace embedding of `create_door_frame`

The bmesh kernel operations are abstract state transformers collected in a
`Kernel` structure (the spec treats the kernel as an external collaborator);
the module's own logic — orderings, selections, branching, and the sequence
of kernel calls (the trace) — is embedded statement by statement.  A Python
runtime error (`IndexError` from `[-1]` on an empty list, `ValueError` from
`min` on an empty sequence, `UnboundLocalError` from reading an unassigned
local) is an `Except.error`. -/

/-- One kernel call, as recorded in the trace. -/
inductive Ev
  | dissolveEdges (numEdges : Nat) (useVerts : Bool)
  | splitTopEdge
  | splitVertical
  | ptMerge
  | arc
  | extrudeDoorFace
  | translateVerts
  | recalcNormals
  | extrudeFrame
  deriving DecidableEq, Repr

structure ArchProp where
  resolution : Nat
  height : ℚ
  offset : ℚ
  deriving Repr

/-- The door parameters read by `create_door_frame`. -/
structure DoorProp where
  frame_thickness : ℚ
  door_depth : ℚ
  frame_depth : ℚ
  arch : ArchProp
  deriving Repr

/-- The mesh-editing kernel and its query operations, abstracted over the
mesh (`M`), edge (`E`), face (`F`) and vertex (`V`) types. -/
structure Kernel (M E F V : Type) where
  faceEdges : M → F → List E
  edgeMedianZ : M → E → ℚ
  dissolveEdges : M → List E → Bool → M
  meshFaces : M → List F
  faceIndex : M → F → Nat
  faceNormal : M → F → Vec3
  filterVerticalEdges : List E → Vec3 → List E
  splitEdgesHorizontalOffsetTop : M → List E → ℚ → M × E
  linkFaces : M → E → List F
  faceCenterZ : M → F → ℚ
  faceWidth : M → F → ℚ
  splitFaceVerticalWithOffset : M → F → Nat → List ℚ → M × List E
  edgeVerts : M → E → List V
  vertLinkEdges : M → V → List E
  vertZ : M → V → ℚ
  vertCo : M → V → Vec3
  pointMerge : M → V → V → Vec3 → M
  arcEdge : M → E → Nat → ℚ → ℚ → M
  extrudeFace : M → F → M × F
  faceVerts : M → F → List V
  translate : M → List V → Vec3 → M
  recalcNormals : M → M
  extrudeAndDeleteBottom : M → F → ℚ → M × F

/-- Lines 81–85 (the point-merge loop) over the abstract kernel, threading
the live mesh and appending one `ptMerge` event per iteration. -/
def mergeLoopK {M E F V : Type} [DecidableEq V] (K : Kernel M E F V) :
    M → List Ev → List V → Except String (M × List Ev)
  | bm, tr, [] => Except.ok (bm, tr)
  | bm, tr, vert :: rest =>
    ((sortByKey ((K.vertLinkEdges bm vert).flatMap
        (fun e => (K.edgeVerts bm e).filter (fun x => decide (x ≠ vert))))
        (K.vertZ bm)).getLast?).elim (Except.error "IndexError")
      (fun upper =>
        mergeLoopK K (K.pointMerge bm upper vert (K.vertCo bm upper))
          (tr ++ [Ev.ptMerge]) rest)

/-- Lines 94–98: recompute all face normals, then extrude the frame by
`-frame_depth` (deleting the bottom cap) when `frame_depth` is truthy,
otherwise return the current face. -/
def finishTail {M E F V : Type} (K : Kernel M E F V) (bm : M) (face : F)
    (prop : DoorProp) (tr : List Ev) : Except String (M × F × List Ev) :=
  if prop.frame_depth ≠ 0 then
    Except.ok ((K.extrudeAndDeleteBottom (K.recalcNormals bm) face (-prop.frame_depth)).1,
      (K.extrudeAndDeleteBottom (K.recalcNormals bm) face (-prop.frame_depth)).2,
      tr ++ [Ev.recalcNormals, Ev.extrudeFrame])
  else Except.ok (K.recalcNormals bm, face, tr ++ [Ev.recalcNormals])

/-- Lines 87–98: the loop `for e in [top, top2]` — evaluating the list
display raises `UnboundLocalError` when `top2` was never assigned — then the
two arcs, the optional door-depth extrusion, and the tail. -/
def arcAndFinish {M E F V : Type} (K : Kernel M E F V) (bm : M) (face : F)
    (top : E) (top2 : Option E) (normal : Vec3) (prop : DoorProp) (tr : List Ev) :
    Except String (M × F × List Ev) :=
  top2.elim
    (Except.error "UnboundLocalError: local variable top2 referenced before assignment")
    (fun t2 =>
      if 0 < prop.door_depth then
        finishTail K
          (K.translate
            (K.extrudeFace
              (K.arcEdge (K.arcEdge bm top prop.arch.resolution prop.arch.height
                prop.arch.offset) t2 prop.arch.resolution prop.arch.height
                prop.arch.offset) face).1
            (K.faceVerts
              (K.extrudeFace
                (K.arcEdge (K.arcEdge bm top prop.arch.resolution prop.arch.height
                  prop.arch.offset) t2 prop.arch.resolution prop.arch.height
                  prop.arch.offset) face).1
              (K.extrudeFace
                (K.arcEdge (K.arcEdge bm top prop.arch.resolution prop.arch.height
                  prop.arch.offset) t2 prop.arch.resolution prop.arch.height
                  prop.arch.offset) face).2)
            ((Vec3.neg normal).smul prop.door_depth))
          (K.extrudeFace
            (K.arcEdge (K.arcEdge bm top prop.arch.resolution prop.arch.height
              prop.arch.offset) t2 prop.arch.resolution prop.arch.height
              prop.arch.offset) face).2
          prop (tr ++ [Ev.arc, Ev.arc, Ev.extrudeDoorFace, Ev.translateVerts])
      else
        finishTail K
          (K.arcEdge (K.arcEdge bm top prop.arch.resolution prop.arch.height
            prop.arch.offset) t2 prop.arch.resolution prop.arch.height
            prop.arch.offset)
          face prop (tr ++ [Ev.arc, Ev.arc]))

/-- Lines 76–85: collect the vertices linked to `top2`, sort them by height,
drop the two lowest, and run the merge loop; returns mesh, frame face,
`top2` and the trace. -/
def frameRingMerge {M E F V : Type} [DecidableEq V] (K : Kernel M E F V) (bm3 : M)
    (face3 : F) (top2 : E) (tr : List Ev) : Except String (M × F × E × List Ev) :=
  Except.map (fun p => (p.1, face3, top2, p.2))
    (mergeLoopK K bm3 tr
      ((sortByKey ((((K.edgeVerts bm3 top2).flatMap (fun v =>
          (K.vertLinkEdges bm3 v).flatMap (K.edgeVerts bm3))).filter
          (fun x => decide (x ∉ K.edgeVerts bm3 top2))).dedup)
        (K.vertZ bm3)).drop 2))

/-- Line 75: `top2 = sorted(face.edges, key=median z)[-1]`. -/
def frameRingTop2 {M E F V : Type} [DecidableEq V] (K : Kernel M E F V) (bm3 : M)
    (face3 : F) (tr : List Ev) : Except String (M × F × E × List Ev) :=
  ((sortByKey (K.faceEdges bm3 face3) (K.edgeMedianZ bm3)).getLast?).elim
    (Except.error "IndexError")
    (fun top2 => frameRingMerge K bm3 face3 top2 tr)

/-- Line 74: the face bounded by both mullion split edges, i.e. the last
entry of an enumeration of `set(edges[0].link_faces) & set(edges[1].link_faces)`. -/
def frameRingCommon {M E F V : Type} [DecidableEq F] [DecidableEq V]
    (K : Kernel M E F V) (bm3 : M) (es : List E) (tr : List Ev) :
    Except String (M × F × E × List Ev) :=
  match es with
  | e0 :: e1 :: _ =>
    (mullionCommonFace ((K.linkFaces bm3 e0).filter
        (fun f => decide (f ∈ K.linkFaces bm3 e1)))).elim (Except.error "IndexError")
      (fun face3 => frameRingTop2 K bm3 face3 tr)
  | _ => Except.error "IndexError"

/-- Lines 70–73: measure the frame face's width and split it vertically with
both offsets `w/3 - frame_thickness`. -/
def frameRingSplit {M E F V : Type} [DecidableEq F] [DecidableEq V]
    (K : Kernel M E F V) (bm2 : M) (face2 : F) (prop : DoorProp) (tr : List Ev) :
    Except String (M × F × E × List Ev) :=
  frameRingCommon K
    (K.splitFaceVerticalWithOffset bm2 face2 2
      [K.faceWidth bm2 face2 / 3 - prop.frame_thickness,
       K.faceWidth bm2 face2 / 3 - prop.frame_thickness]).1
    (K.splitFaceVerticalWithOffset bm2 face2 2
      [K.faceWidth bm2 face2 / 3 - prop.frame_thickness,
       K.faceWidth bm2 face2 / 3 - prop.frame_thickness]).2
    (tr ++ [Ev.splitVertical])

/-- Line 67: `face = min(top_edge.link_faces, key=center z)`. -/
def frameRingFrameFace {M E F V : Type} [DecidableEq F] [DecidableEq V]
    (K : Kernel M E F V) (bm2 : M) (top_edge : E) (prop : DoorProp) (tr : List Ev) :
    Except String (M × F × E × List Ev) :=
  (minByKey (K.linkFaces bm2 top_edge) (K.faceCenterZ bm2)).elim
    (Except.error "ValueError: min() arg is an empty sequence")
    (fun face2 => frameRingSplit K bm2 face2 prop tr)

/-- Lines 65–85: the whole `frame_thickness > 0` block. -/
def frameRingStage {M E F V : Type} [DecidableEq F] [DecidableEq V]
    (K : Kernel M E F V) (bm1 : M) (face1 : F) (normal : Vec3) (prop : DoorProp)
    (tr : List Ev) : Except String (M × F × E × List Ev) :=
  frameRingFrameFace K
    (K.splitEdgesHorizontalOffsetTop bm1
      (K.filterVerticalEdges (K.faceEdges bm1 face1) normal) prop.frame_thickness).1
    (K.splitEdgesHorizontalOffsetTop bm1
      (K.filterVerticalEdges (K.faceEdges bm1 face1) normal) prop.frame_thickness).2
    prop (tr ++ [Ev.splitTopEdge])

/-- Lines 62–98 after the floor removal: capture the top edge, run the frame
ring when `frame_thickness > 0`, then arc and finish. -/
def cdfTop {M E F V : Type} [DecidableEq F] [DecidableEq V] (K : Kernel M E F V)
    (bm1 : M) (face1 : F) (prop : DoorProp) (tr0 : List Ev) :
    Except String (M × F × List Ev) :=
  ((sortByKey (K.faceEdges bm1 face1) (K.edgeMedianZ bm1)).getLast?).elim
    (Except.error "IndexError")
    (fun top =>
      if 0 < prop.frame_thickness then
        (frameRingStage K bm1 face1 (K.faceNormal bm1 face1) prop tr0).bind
          (fun q => arcAndFinish K q.1 q.2.1 top (some q.2.2.1)
            (K.faceNormal bm1 face1) prop q.2.2.2)
      else
        arcAndFinish K bm1 face1 top none (K.faceNormal bm1 face1) prop tr0)

/-- `create_door_frame` (lines 51–98) over the abstract kernel: dissolve the
bottom edge (with vertices), re-acquire the merged face by index query, and
continue with `cdfTop`. -/
def create_door_frame {M E F V : Type} [DecidableEq F] [DecidableEq V]
    (K : Kernel M E F V) (bm : M) (face : F) (prop : DoorProp) :
    Except String (M × F × List Ev) :=
  (face_by_highest_index
      (K.meshFaces (K.dissolveEdges bm
        (floorRemovalEdges (K.faceEdges bm face) (K.edgeMedianZ bm)) true))
      (K.faceIndex (K.dissolveEdges bm
        (floorRemovalEdges (K.faceEdges bm face) (K.edgeMedianZ bm)) true))).elim
    (Except.error "IndexError")
    (fun face1 => cdfTop K
      (K.dissolveEdges bm
        (floorRemovalEdges (K.faceEdges bm face) (K.edgeMedianZ bm)) true)
      face1 prop
      [Ev.dissolveEdges
        (floorRemovalEdges (K.faceEdges bm face) (K.edgeMedianZ bm)).length true])

/-- A concrete kernel instance on trivial carrier types: enough mesh
structure for one full frame construction (every query returns a fixed
answer). -/
def KUnit : Kernel Unit Nat Nat Nat where
  faceEdges := fun _ _ => [0]
  edgeMedianZ := fun _ _ => 0
  dissolveEdges := fun m _ _ => m
  meshFaces := fun _ => [0]
  faceIndex := fun _ _ => 0
  faceNormal := fun _ _ => ⟨0, 1, 0⟩
  filterVerticalEdges := fun l _ => l
  splitEdgesHorizontalOffsetTop := fun m _ _ => (m, 7)
  linkFaces := fun _ _ => [1, 2]
  faceCenterZ := fun _ f => (f : ℚ)
  faceWidth := fun _ _ => 3
  splitFaceVerticalWithOffset := fun m _ _ _ => (m, [4, 5])
  edgeVerts := fun _ _ => []
  vertLinkEdges := fun _ _ => []
  vertZ := fun _ v => (v : ℚ)
  vertCo := fun _ _ => ⟨0, 0, 0⟩
  pointMerge := fun m _ _ _ => m
  arcEdge := fun m _ _ _ _ => m
  extrudeFace := fun m _ => (m, 9)
  faceVerts := fun _ _ => []
  translate := fun m _ _ => m
  recalcNormals := fun m => m
  extrudeAndDeleteBottom := fun m _ _ => (m, 8)

/-! ## Depth extrusion over a concrete mesh model
(`extrude_face_and_delete_bottom`, `delete_bottom_face`, lines 95–98 and
112–137)

A concrete boundary mesh: a vertex-position table and faces as index loops
with a stored normal.  `calc_edge_median`, `calc_face_dimensions` relatives
and `filter_horizontal_edges` are repository utilities not among the given
sources; they are modelled from the spec where used. -/

/-- A face: an ordered loop of vertex indices plus its normal. -/
structure MFace where
  loop : List Nat
  normal : Vec3
  deriving DecidableEq, Repr

/-- A mesh: vertex positions and faces. -/
structure CMesh where
  verts : List Vec3
  faces : List MFace
  deriving DecidableEq, Repr

/-- Position of vertex `i` (out-of-range indices read as the origin). -/
def vpos (m : CMesh) (i : Nat) : Vec3 := m.verts.getD i ⟨0, 0, 0⟩

/-- Consecutive vertex pairs of a face loop, with wraparound. -/
def faceEdgePairs (f : MFace) : List (Nat × Nat) := f.loop.zip (f.loop.rotate 1)

/-- Modelled from the spec: `calc_edge_median` — the median point of an edge. -/
def calc_edge_median (m : CMesh) (e : Nat × Nat) : Vec3 :=
  ((vpos m e.1).add (vpos m e.2)).smul (1 / 2)

/-- `BMFace.calc_center_median` (bmesh kernel): the mean of the face's
vertex positions. -/
def calc_center_median (m : CMesh) (f : MFace) : Vec3 :=
  ((f.loop.map (vpos m)).foldl Vec3.add ⟨0, 0, 0⟩).smul (1 / (f.loop.length : ℚ))

/-- Modelled from the spec: `filter_horizontal_edges` — the edges lying in a
horizontal plane (direction without vertical component); the classification
relative to the face normal is trivial for the axis-aligned faces the
algorithm is specified on. -/
def filter_horizontal_edges (m : CMesh) (es : List (Nat × Nat)) (_nrm : Vec3) :
    List (Nat × Nat) :=
  es.filter (fun e => decide (((vpos m e.2).sub (vpos m e.1)).z = 0))

/-- The faces of the mesh incident to the (undirected) edge `e`. -/
def edgeLinkFaces (m : CMesh) (e : Nat × Nat) : List MFace :=
  m.faces.filter (fun F => decide (e ∈ faceEdgePairs F ∨ (e.2, e.1) ∈ faceEdgePairs F))

/-- `delete_bottom_face` (lines 123–133): take the lowest horizontal edge of
the face by median height, then the lowest of its linked faces by center
height, and delete that face (`none` models `min()` raising `ValueError` on
an empty sequence; bmesh would additionally sweep loose geometry, which no
later step observes). -/
def delete_bottom_face (m : CMesh) (f : MFace) : Option CMesh :=
  (minByKey (filter_horizontal_edges m (faceEdgePairs f) f.normal)
      (fun e => (calc_edge_median m e).z)).elim none
    (fun bottom_edge =>
      (minByKey (edgeLinkFaces m bottom_edge)
          (fun F => (calc_center_median m F).z)).elim none
        (fun hidden => some { verts := m.verts, faces := m.faces.erase hidden }))

/-- `bmesh.ops.extrude_discrete_faces` on one face: append a copy of the
face's vertices, build the side quads between the old and new boundary, and
replace the face by its copy (side-face normals are never consumed by the
modelled steps and are stored as the zero vector). -/
def extrude_discrete_face (m : CMesh) (f : MFace) : CMesh × MFace :=
  ({ verts := m.verts ++ f.loop.map (vpos m),
     faces := (m.faces.erase f) ++
       (List.range f.loop.length).map (fun i =>
         (⟨[f.loop.getD i 0, f.loop.getD ((i + 1) % f.loop.length) 0,
            m.verts.length + (i + 1) % f.loop.length, m.verts.length + i],
           ⟨0, 0, 0⟩⟩ : MFace)) ++
       [⟨(List.range f.loop.length).map (fun i => m.verts.length + i), f.normal⟩] },
   ⟨(List.range f.loop.length).map (fun i => m.verts.length + i), f.normal⟩)

/-- Translate, by `vec`, the positions whose index (starting at `start`)
belongs to `idxs`. -/
def translate_list (idxs : List Nat) (vec : Vec3) : List Vec3 → Nat → List Vec3
  | [], _ => []
  | p :: rest, start =>
    (if start ∈ idxs then p.add vec else p) :: translate_list idxs vec rest (start + 1)

/-- `bmesh.ops.translate` restricted to the vertex subset given by index. -/
def translate_verts (m : CMesh) (idxs : List Nat) (vec : Vec3) : CMesh :=
  { verts := translate_list idxs vec m.verts 0, faces := m.faces }

/-- Lines 134–136 before the deletion: extrude, then translate the new
face's vertices by `f.normal * extrude_depth`. -/
def extrude_translate (m : CMesh) (face : MFace) (extrude_depth : ℚ) :
    CMesh × MFace :=
  (translate_verts (extrude_discrete_face m face).1
      (extrude_discrete_face m face).2.loop
      ((extrude_discrete_face m face).2.normal.smul extrude_depth),
   (extrude_discrete_face m face).2)

/-- `extrude_face_and_delete_bottom` (lines 130–137). -/
def extrude_face_and_delete_bottom (m : CMesh) (face : MFace)
    (extrude_depth : ℚ) : Option (CMesh × MFace) :=
  (delete_bottom_face (extrude_translate m face extrude_depth).1
      (extrude_translate m face extrude_depth).2).map
    (fun m3 => (m3, (extrude_translate m face extrude_depth).2))

/-- Lines 95–98 of `create_door_frame` over the concrete mesh model: when
`frame_depth` is truthy, extrude by `-frame_depth` and delete the bottom
face; otherwise return the incoming face directly. -/
def frame_depth_step (m : CMesh) (face : MFace) (frame_depth : ℚ) :
    Option (CMesh × MFace) :=
  if frame_depth ≠ 0 then extrude_face_and_delete_bottom m face (-frame_depth)
  else some (m, face)

/-- A unit wall-opening face for exercising the depth extrusion: a unit
square in the xz-plane with normal along +y. -/
def c7mesh : CMesh :=
  ⟨[⟨0, 0, 0⟩, ⟨1, 0, 0⟩, ⟨1, 0, 1⟩, ⟨0, 0, 1⟩], [⟨[0, 1, 2, 3], ⟨0, 1, 0⟩⟩]⟩

def c7face : MFace := ⟨[0, 1, 2, 3], ⟨0, 1, 0⟩⟩

/-- The mesh after extruding `c7face` by depth `-1` and deleting the bottom
side face. -/
def c7meshAfter : CMesh :=
  ⟨[⟨0, 0, 0⟩, ⟨1, 0, 0⟩, ⟨1, 0, 1⟩, ⟨0, 0, 1⟩,
    ⟨0, -1, 0⟩, ⟨1, -1, 0⟩, ⟨1, -1, 1⟩, ⟨0, -1, 1⟩],
   [⟨[1, 2, 6, 5], ⟨0, 0, 0⟩⟩, ⟨[2, 3, 7, 6], ⟨0, 0, 0⟩⟩,
    ⟨[3, 0, 4, 7], ⟨0, 0, 0⟩⟩, ⟨[4, 5, 6, 7], ⟨0, 1, 0⟩⟩]⟩

def c7faceAfter : MFace := ⟨[4, 5, 6, 7], ⟨0, 1, 0⟩⟩

/-! ## Theorems -/

theorem sortByKey_perm {α : Type} (l : List α) (key : α → ℚ) :
    List.Perm (sortByKey l key) l :=
  List.perm_insertionSort _ l

theorem sortByKey_sorted {α : Type} (l : List α) (key : α → ℚ) :
    List.Sorted (fun a b => key a ≤ key b) (sortByKey l key) := by
  haveI : IsTotal α (fun a b => key a ≤ key b) := ⟨fun a b => le_total (key a) (key b)⟩
  haveI : IsTrans α (fun a b => key a ≤ key b) := ⟨fun _ _ _ h1 h2 => le_trans h1 h2⟩
  exact List.sorted_insertionSort _ l

theorem sortByKey_head_min {α : Type} {l : List α} {key : α → ℚ} {a : α} {t : List α}
    (h : sortByKey l key = a :: t) : a ∈ l ∧ ∀ x ∈ l, key a ≤ key x := by
  have hp := sortByKey_perm l key
  rw [h] at hp
  refine ⟨hp.mem_iff.mp (List.mem_cons_self a t), ?_⟩
  intro x hx
  have hx' : x ∈ a :: t := hp.mem_iff.mpr hx
  rcases List.mem_cons.mp hx' with rfl | hxt
  · exact le_refl _
  · have hs := sortByKey_sorted l key
    rw [h] at hs
    exact (List.sorted_cons.mp hs).1 x hxt

theorem sorted_getLast?_max {α : Type} {key : α → ℚ} :
    ∀ {l : List α} {m : α}, List.Sorted (fun a b => key a ≤ key b) l →
      l.getLast? = some m → m ∈ l ∧ ∀ x ∈ l, key x ≤ key m
  | [], m, _, h => by simp at h
  | [a], m, _, h => by
      simp only [List.getLast?_singleton, Option.some.injEq] at h
      subst h
      refine ⟨List.mem_singleton_self a, ?_⟩
      intro x hx
      rcases List.mem_singleton.mp hx with rfl
      exact le_refl _
  | a :: b :: t, m, hs, h => by
      have h' : (b :: t).getLast? = some m := by
        simpa [List.getLast?_cons_cons] using h
      have hs' := List.sorted_cons.mp hs
      obtain ⟨hm, hmax⟩ := sorted_getLast?_max hs'.2 h'
      refine ⟨List.mem_cons_of_mem _ hm, ?_⟩
      intro x hx
      rcases List.mem_cons.mp hx with rfl | hx'
      · exact hs'.1 _ hm
      · exact hmax x hx'

theorem sortByKey_getLast?_max {α : Type} {l : List α} {key : α → ℚ} {m : α}
    (h : (sortByKey l key).getLast? = some m) : m ∈ l ∧ ∀ x ∈ l, key x ≤ key m := by
  obtain ⟨hm, hmax⟩ := sorted_getLast?_max (sortByKey_sorted l key) h
  have hp := sortByKey_perm l key
  exact ⟨hp.mem_iff.mp hm, fun x hx => hmax x (hp.mem_iff.mpr hx)⟩

theorem minByKey_foldl_spec {α : Type} :
    ∀ (t : List α) (a : α) (key : α → ℚ),
      (t.foldl (fun acc x => if key x < key acc then x else acc) a) ∈ a :: t ∧
      ∀ x ∈ a :: t,
        key (t.foldl (fun acc x => if key x < key acc then x else acc) a) ≤ key x
  | [], a, key => by
      refine ⟨List.mem_singleton_self a, ?_⟩
      intro x hx
      rcases List.mem_singleton.mp hx with rfl
      exact le_refl _
  | b :: t, a, key => by
      obtain ⟨hmem, hmin⟩ := minByKey_foldl_spec t (if key b < key a then b else a) key
      constructor
      · simp only [List.foldl_cons]
        rcases List.mem_cons.mp hmem with he | ht
        · rw [he]
          by_cases hba : key b < key a
          · simp [hba]
          · simp [hba]
        · exact List.mem_cons_of_mem _ (List.mem_cons_of_mem _ ht)
      · intro x hx
        simp only [List.foldl_cons]
        have hsel := hmin _ (List.mem_cons_self _ _)
        rcases List.mem_cons.mp hx with hxa | hx'
        · have hselx : key (if key b < key a then b else a) ≤ key x := by
            rw [hxa]
            split_ifs with hba
            · exact le_of_lt hba
            · exact le_refl _
          exact le_trans hsel hselx
        · rcases List.mem_cons.mp hx' with hxb | hx''
          · have hselx : key (if key b < key a then b else a) ≤ key x := by
              rw [hxb]
              split_ifs with hba
              · exact le_refl _
              · exact le_of_not_lt hba
            exact le_trans hsel hselx
          · exact hmin x (List.mem_cons_of_mem _ hx'')

theorem minByKey_spec {α : Type} {l : List α} {key : α → ℚ} {m : α}
    (h : minByKey l key = some m) : m ∈ l ∧ ∀ x ∈ l, key m ≤ key x := by
  cases l with
  | nil => simp [minByKey] at h
  | cons a t =>
    simp only [minByKey, Option.some.injEq] at h
    subst h
    exact minByKey_foldl_spec t a key

theorem innerEdgeLinkFaces_mem {c : Nat} (hc : 1 ≤ c) :
    ∀ x, x ∈ innerEdgeLinkFaces c ↔ x < c + 1 := by
  intro x
  simp only [innerEdgeLinkFaces, List.mem_flatMap, List.mem_range, List.mem_cons,
    List.mem_singleton, List.not_mem_nil, or_false]
  constructor
  · rintro ⟨i, hi, hx⟩
    rcases hx with rfl | rfl <;> omega
  · intro hx
    by_cases h : x < c
    · exact ⟨x, h, Or.inl rfl⟩
    · exact ⟨c - 1, by omega, Or.inr (by omega)⟩

theorem innerEdgeLinkFaces_dedup_length {c : Nat} (hc : 1 ≤ c) :
    (innerEdgeLinkFaces c).dedup.length = c + 1 := by
  have hperm : List.Perm (innerEdgeLinkFaces c).dedup (List.range (c + 1)) := by
    refine (List.perm_ext_iff_of_nodup (List.nodup_dedup _) (List.nodup_range _)).mpr ?_
    intro x
    rw [List.mem_dedup, innerEdgeLinkFaces_mem hc x, List.mem_range]
  simpa [List.length_range] using hperm.length_eq

/-- C4: for every `count ≥ 1` the Array Stage returns exactly `count` faces;
for `count ≤ 1` (including non-positive counts) it is the identity,
returning a single-element list containing the input face unchanged. -/
theorem create_door_array_spec (face : Nat) (count : Int) :
    (count ≤ 1 → create_door_array face count = [face]) ∧
    (1 ≤ count → (create_door_array face count).length = count.toNat) := by
  constructor
  · intro h
    simp [create_door_array, h]
  · intro h
    by_cases h1 : count ≤ 1
    · have : count = 1 := le_antisymm h1 h
      subst this
      simp [create_door_array]
    · push_neg at h1
      have hgt : ¬ count ≤ 1 := not_le.mpr h1
      simp only [create_door_array, if_neg hgt]
      have hc : 1 ≤ (count - 1).toNat := by omega
      rw [innerEdgeLinkFaces_dedup_length hc]
      omega

/-- Witness for C4 at `count = 0` (identity) and `count = 3` (three faces). -/
theorem create_door_array_spec_witness :
    create_door_array 5 0 = [5] ∧ (create_door_array 7 3).length = (3 : Int).toNat :=
  ⟨(create_door_array_spec 5 0).1 (by decide), (create_door_array_spec 7 3).2 (by decide)⟩

/-- C9: the dispatcher invokes exactly one generator for each of the three
recognized fill types and none (mesh unchanged) for any other string. -/
theorem create_door_fill_spec :
    create_door_fill FillType.PANELS.value = some FillGen.panel ∧
    create_door_fill FillType.GLASS_PANES.value = some FillGen.glassPanes ∧
    create_door_fill FillType.LOUVER.value = some FillGen.louver ∧
    (∀ s : String, s ≠ "PANELS" → s ≠ "GLASS PANES" → s ≠ "LOUVER" →
      create_door_fill s = none) ∧
    (∀ (M : Type) (applyFill : FillGen → M → M) (s : String) (m : M),
      s ≠ "PANELS" → s ≠ "GLASS PANES" → s ≠ "LOUVER" →
      create_door_fill_mesh applyFill s m = m) := by
  refine ⟨rfl, rfl, rfl, ?_, ?_⟩
  · intro s h1 h2 h3
    simp [create_door_fill, h1, h2, h3]
  · intro M applyFill s m h1 h2 h3
    simp [create_door_fill_mesh, create_door_fill, h1, h2, h3]

/-- Witness for C9 at the unrecognized fill type `NONE`. -/
theorem create_door_fill_spec_witness :
    create_door_fill "NONE" = none ∧
    create_door_fill_mesh (fun _ n => n + 1) "NONE" (0 : Nat) = 0 :=
  ⟨create_door_fill_spec.2.2.2.1 "NONE" (by decide) (by decide) (by decide),
   create_door_fill_spec.2.2.2.2 Nat (fun _ n => n + 1) "NONE" 0
     (by decide) (by decide) (by decide)⟩

/-- C5: an array face on which the Split Stage returns the failure sentinel
contributes no frame construction and no fill dispatch, and the remaining
array faces of the batch are still processed. -/
theorem create_door_skip {α : Type} (array : α → List α) (split : α → Option α)
    (frame : α → α) (face aface : α) (pre post : List α)
    (harr : array face = pre ++ aface :: post) (hfail : split aface = none) :
    processArrayFace split frame aface = [] ∧
    create_door array split frame [face] =
      pre.flatMap (processArrayFace split frame) ++
        post.flatMap (processArrayFace split frame) := by
  have h1 : processArrayFace split frame aface = [] := by
    simp [processArrayFace, hfail]
  refine ⟨h1, ?_⟩
  simp [create_door, harr, h1]

/-- Witness for C5: array face `2` fails to split, faces `1` and `3` are
still processed. -/
theorem create_door_skip_witness :
    processArrayFace (fun a => if a = 2 then none else some a) (fun a => a)
        (2 : Nat) = [] ∧
    create_door (fun _ => [1, 2, 3]) (fun a => if a = 2 then none else some a)
        (fun a => a) [0] =
      [1].flatMap (processArrayFace (fun a => if a = 2 then none else some a)
        (fun a => a)) ++
      [3].flatMap (processArrayFace (fun a => if a = 2 then none else some a)
        (fun a => a)) :=
  create_door_skip (fun _ => [1, 2, 3]) (fun a => if a = 2 then none else some a)
    (fun a => a) 0 2 [1] [3] rfl rfl

theorem innerEdgeCoords_two (center w : ℚ) :
    innerEdgeCoords center w 2 =
      [center - w / 2 + (0 + 1) * w / (2 + 1),
       center - w / 2 + (1 + 1) * w / (2 + 1)] := by
  have h0 : ((0 : ℕ) : ℚ) = 0 := Nat.cast_zero
  have h1 : ((1 : ℕ) : ℚ) = 1 := Nat.cast_one
  have h2 : ((2 : ℕ) : ℚ) = 2 := by norm_num
  show [center - w / 2 + (((0 : ℕ) : ℚ) + 1) * w / (((2 : ℕ) : ℚ) + 1),
        center - w / 2 + (((1 : ℕ) : ℚ) + 1) * w / (((2 : ℕ) : ℚ) + 1)] = _
  rw [h0, h1, h2]

theorem sortByKey_pair {a b : ℚ} (h : a ≤ b) :
    sortByKey [a, b] (fun p => p) = [a, b] := by
  unfold sortByKey
  rw [List.insertionSort_cons]
  · rfl
  · intro c hc
    rcases List.mem_singleton.mp hc with rfl
    exact h

/-- C2 (amended): for a face of positive width `w` centred at `center`, the
two mullion cuts end up at distance `frame_thickness` from each side of the
face — the even-thirds cuts are translated outward by `(w/3) - t`, they are
not positioned at `(w/3) - t` from the sides. -/
theorem frameMullionSplit_positions (center w t : ℚ) (hw : 0 < w) :
    frameMullionSplit center w t = [center - w / 2 + t, center + w / 2 - t] := by
  have hle : center - w / 2 + (0 + 1) * w / (2 + 1) ≤
      center - w / 2 + (1 + 1) * w / (2 + 1) := by linarith
  have hA : center - w / 2 + (0 + 1) * w / (2 + 1) - center < 0 := by linarith
  have hB : 0 < center - w / 2 + (1 + 1) * w / (2 + 1) - center := by linarith
  have hsA : ratSign (center - w / 2 + (0 + 1) * w / (2 + 1) - center) = -1 := by
    unfold ratSign
    rw [if_pos hA]
  have hsB : ratSign (center - w / 2 + (1 + 1) * w / (2 + 1) - center) = 1 := by
    unfold ratSign
    rw [if_neg (not_lt.mpr (le_of_lt hB)), if_pos hB]
  unfold frameMullionSplit split_face_vertical_with_offset
  rw [innerEdgeCoords_two, sortByKey_pair hle]
  simp only [List.zip_cons_cons, List.zip_nil_right, List.zip_nil_left,
    List.map_cons, List.map_nil, List.length_cons, List.length_nil,
    List.drop_succ_cons, List.drop_zero, List.drop_nil, List.append_nil,
    hsA, hsB, List.cons.injEq, and_true]
  constructor
  · ring
  · ring

/-- Witness for C2's amended theorem at `center = 0`, `w = 6`, `t = 1`. -/
theorem frameMullionSplit_positions_witness :
    (0 : ℚ) < 6 ∧ frameMullionSplit 0 6 1 = [0 - 6 / 2 + 1, 0 + 6 / 2 - 1] :=
  ⟨by norm_num, frameMullionSplit_positions 0 6 1 (by norm_num)⟩

/-- C2 counterexample: for width `6` and thickness `2` the claimed position —
`(w/3) - t = 0` from each side, i.e. cuts at `-3` and `3` — differs from the
code's result `[-1, 1]` (distance `t = 2` from each side). -/
theorem frameMullionSplit_counterexample :
    frameMullionSplit 0 6 2 = [-1, 1] ∧
    frameMullionSplit 0 6 2 ≠
      [0 - 6 / 2 + (6 / 3 - 2), 0 + 6 / 2 - (6 / 3 - 2)] := by
  have hc : innerEdgeCoords 0 6 2 = [-1, 1] := by
    rw [innerEdgeCoords_two]
    norm_num
  have hs : sortByKey [(-1 : ℚ), 1] (fun p => p) = [-1, 1] :=
    sortByKey_pair (by norm_num)
  have hsA : ratSign ((-1 : ℚ) - 0) = -1 := by
    unfold ratSign
    rw [if_pos (by norm_num)]
  have hsB : ratSign ((1 : ℚ) - 0) = 1 := by
    unfold ratSign
    rw [if_neg (by norm_num), if_pos (by norm_num)]
  have h : frameMullionSplit 0 6 2 = [-1, 1] := by
    unfold frameMullionSplit split_face_vertical_with_offset
    rw [hc, hs]
    simp only [List.zip_cons_cons, List.zip_nil_right, List.zip_nil_left,
      List.map_cons, List.map_nil, List.length_cons, List.length_nil,
      List.drop_succ_cons, List.drop_zero, List.drop_nil, List.append_nil,
      hsA, hsB, List.cons.injEq, and_true]
    norm_num
  refine ⟨h, ?_⟩
  rw [h]
  intro hcontra
  simp only [List.cons.injEq] at hcontra
  have h1 := hcontra.1
  norm_num at h1

theorem mergeLoopState_spec {S : Type} (vle : S → Vtx → List Nat)
    (ev : S → Nat → List Vtx) (pm : S → Vtx → Vtx → Vec3 → S) :
    ∀ (l : List Vtx) (s s2 : S) (ops : List MergeOp),
      mergeLoopState vle ev pm s l = Except.ok (s2, ops) →
      ops.map MergeOp.vert = l ∧
      ∀ op ∈ ops, op.pos = op.upper.co ∧ op.upper ∈ op.cand ∧
        ∀ x ∈ op.cand, x.co.z ≤ op.upper.co.z
  | [], s, s2, ops, h => by
      simp only [mergeLoopState, Except.ok.injEq, Prod.mk.injEq] at h
      rw [← h.2]
      exact ⟨rfl, fun op hop => absurd hop (List.not_mem_nil op)⟩
  | vert :: rest, s, s2, ops, h => by
      simp only [mergeLoopState] at h
      cases hg : (sortByKey ((vle s vert).flatMap
          (fun e => (ev s e).filter (fun x => decide (x ≠ vert))))
          (fun v => v.co.z)).getLast? with
      | none =>
          rw [hg] at h
          simp only [Option.elim_none] at h
          exact absurd h (by simp)
      | some upper =>
          rw [hg] at h
          simp only [Option.elim_some] at h
          cases hrec : mergeLoopState vle ev pm (pm s upper vert upper.co) rest with
          | error e =>
              rw [hrec] at h
              simp [Except.map] at h
          | ok p =>
              obtain ⟨s3, ops3⟩ := p
              rw [hrec] at h
              simp only [Except.map, Except.ok.injEq, Prod.mk.injEq] at h
              obtain ⟨hs3, hops⟩ := h
              subst hops
              obtain ⟨hmap, hprops⟩ :=
                mergeLoopState_spec vle ev pm rest (pm s upper vert upper.co) s3 ops3 hrec
              constructor
              · simp [hmap]
              · intro op hop
                rcases List.mem_cons.mp hop with rfl | hop'
                · exact ⟨rfl, (sortByKey_getLast?_max hg).1, (sortByKey_getLast?_max hg).2⟩
                · exact hprops op hop'

/-- C3 (amended): in the frame-ring vertex-merge step the processed vertices
are exactly the linked vertices minus the two lowest by vertical coordinate,
processed in ascending vertical order (lowest remaining tier first, not
topmost first); each dropped vertex lies no higher than any processed one;
and each processed vertex is point-merged with its currently-linked
neighbour of greatest vertical coordinate, at that neighbour's position. -/
theorem doorFrameMergeStep_spec {S : Type} (vle : S → Vtx → List Nat)
    (ev : S → Nat → List Vtx) (pm : S → Vtx → Vtx → Vec3 → S) (s : S)
    (tv : List Vtx) (s2 : S) (ops : List MergeOp)
    (h : doorFrameMergeStep vle ev pm s tv = Except.ok (s2, ops)) :
    ops.map MergeOp.vert = topVertsOf (vle s) (ev s) tv ∧
    List.Sorted (fun a b : Vtx => a.co.z ≤ b.co.z) (ops.map MergeOp.vert) ∧
    (∀ d ∈ (sortByKey (linkedOuterVerts (vle s) (ev s) tv) (fun v => v.co.z)).take 2,
      ∀ q ∈ ops.map MergeOp.vert, d.co.z ≤ q.co.z) ∧
    ∀ op ∈ ops, op.pos = op.upper.co ∧ op.upper ∈ op.cand ∧
      ∀ x ∈ op.cand, x.co.z ≤ op.upper.co.z := by
  obtain ⟨hmap, hprops⟩ := mergeLoopState_spec vle ev pm _ s s2 ops h
  have hsorted := sortByKey_sorted (linkedOuterVerts (vle s) (ev s) tv)
    (fun v => v.co.z)
  have hsl : List.Sorted (fun a b : Vtx => a.co.z ≤ b.co.z)
      (topVertsOf (vle s) (ev s) tv) :=
    List.Pairwise.sublist (List.drop_sublist 2 _) hsorted
  refine ⟨hmap, hmap ▸ hsl, ?_, hprops⟩
  intro d hd q hq
  rw [hmap] at hq
  have hsplit := hsorted
  rw [← List.take_append_drop 2 (sortByKey (linkedOuterVerts (vle s) (ev s) tv)
    (fun v => v.co.z))] at hsplit
  exact (List.pairwise_append.mp hsplit).2.2 d hd q hq

/-- C3 counterexample: on this mesh neighbourhood the merge step processes
the qualifying vertices at heights `[2, 3, 4]` in that (ascending) order —
the first merge is applied at the lowest remaining tier, not the topmost, so
the merges are not applied from the topmost tier downward. -/
theorem doorFrameMergeStep_order_counterexample :
    (Except.toOption (doorFrameMergeStep c3vle c3ev (fun s _ _ _ => s) () c3tv)).map
        (fun p => p.2.map (fun op => op.vert.co.z)) = some [2, 3, 4] ∧
    ¬ List.Sorted (fun a b : ℚ => b ≤ a) [2, 3, 4] := by
  constructor
  · decide
  · decide

/-- Witness for C3's amended theorem on the same concrete neighbourhood. -/
theorem doorFrameMergeStep_spec_witness :
    List.Sorted (fun a b : Vtx => a.co.z ≤ b.co.z)
      (([⟨⟨100, ⟨0, 0, 5⟩⟩, ⟨2, ⟨0, 0, 2⟩⟩, [⟨100, ⟨0, 0, 5⟩⟩], ⟨0, 0, 5⟩⟩,
         ⟨⟨100, ⟨0, 0, 5⟩⟩, ⟨3, ⟨0, 0, 3⟩⟩, [⟨100, ⟨0, 0, 5⟩⟩], ⟨0, 0, 5⟩⟩,
         ⟨⟨100, ⟨0, 0, 5⟩⟩, ⟨4, ⟨0, 0, 4⟩⟩, [⟨100, ⟨0, 0, 5⟩⟩], ⟨0, 0, 5⟩⟩] :
        List MergeOp).map MergeOp.vert) :=
  (doorFrameMergeStep_spec c3vle c3ev (fun s _ _ _ => s) () c3tv ()
    [⟨⟨100, ⟨0, 0, 5⟩⟩, ⟨2, ⟨0, 0, 2⟩⟩, [⟨100, ⟨0, 0, 5⟩⟩], ⟨0, 0, 5⟩⟩,
     ⟨⟨100, ⟨0, 0, 5⟩⟩, ⟨3, ⟨0, 0, 3⟩⟩, [⟨100, ⟨0, 0, 5⟩⟩], ⟨0, 0, 5⟩⟩,
     ⟨⟨100, ⟨0, 0, 5⟩⟩, ⟨4, ⟨0, 0, 4⟩⟩, [⟨100, ⟨0, 0, 5⟩⟩], ⟨0, 0, 5⟩⟩]
    (by rfl)).2.1

theorem elim_ok {α β : Type} {o : Option α} {err : String} {g : α → Except String β}
    {b : β} (h : o.elim (Except.error err) g = Except.ok b) :
    ∃ a, o = some a ∧ g a = Except.ok b := by
  cases o with
  | none => simp at h
  | some a => exact ⟨a, rfl, by simpa using h⟩

theorem except_bind_ok {ε α β : Type} {e : Except ε α} {g : α → Except ε β} {b : β}
    (h : e.bind g = Except.ok b) : ∃ a, e = Except.ok a ∧ g a = Except.ok b := by
  cases e with
  | error x => simp [Except.bind] at h
  | ok a => exact ⟨a, rfl, by simpa [Except.bind] using h⟩

theorem except_map_ok {ε α β : Type} {g : α → β} {e : Except ε α} {b : β}
    (h : Except.map g e = Except.ok b) : ∃ a, e = Except.ok a ∧ g a = b := by
  cases e with
  | error x => simp [Except.map] at h
  | ok a =>
      refine ⟨a, rfl, ?_⟩
      simpa [Except.map] using h

theorem mergeLoopK_trace {M E F V : Type} [DecidableEq V] (K : Kernel M E F V) :
    ∀ (l : List V) (bm : M) (tr : List Ev) (r : M × List Ev),
      mergeLoopK K bm tr l = Except.ok r →
      ∃ ext, r.2 = tr ++ ext ∧ Ev.recalcNormals ∉ ext
  | [], bm, tr, r, h => by
      simp only [mergeLoopK, Except.ok.injEq] at h
      refine ⟨[], ?_, by simp⟩
      rw [← h]
      simp
  | vert :: rest, bm, tr, r, h => by
      simp only [mergeLoopK] at h
      obtain ⟨upper, hup, h⟩ := elim_ok h
      obtain ⟨ext, hext, hmem⟩ := mergeLoopK_trace K rest
        (K.pointMerge bm upper vert (K.vertCo bm upper)) (tr ++ [Ev.ptMerge]) r h
      refine ⟨Ev.ptMerge :: ext, ?_, ?_⟩
      · rw [hext, List.append_assoc]
        rfl
      · simp only [List.mem_cons, not_or]
        exact ⟨by simp, hmem⟩

theorem finishTail_ok {M E F V : Type} (K : Kernel M E F V) (bm : M) (face : F)
    (prop : DoorProp) (tr : List Ev) (m : M) (f : F) (tr2 : List Ev)
    (h : finishTail K bm face prop tr = Except.ok (m, f, tr2)) :
    ∃ ext, tr2 = tr ++ ext ∧ ext.count Ev.recalcNormals = 1 := by
  unfold finishTail at h
  by_cases hf : prop.frame_depth ≠ 0
  · rw [if_pos hf] at h
    simp only [Except.ok.injEq, Prod.mk.injEq] at h
    exact ⟨[Ev.recalcNormals, Ev.extrudeFrame], h.2.2.symm, by decide⟩
  · rw [if_neg hf] at h
    simp only [Except.ok.injEq, Prod.mk.injEq] at h
    exact ⟨[Ev.recalcNormals], h.2.2.symm, by decide⟩

theorem arcAndFinish_ok {M E F V : Type} (K : Kernel M E F V) (bm : M) (face : F)
    (top : E) (top2 : Option E) (normal : Vec3) (prop : DoorProp) (tr : List Ev)
    (m : M) (f : F) (tr2 : List Ev)
    (h : arcAndFinish K bm face top top2 normal prop tr = Except.ok (m, f, tr2)) :
    ∃ ext, tr2 = tr ++ ext ∧ ext.count Ev.recalcNormals = 1 := by
  unfold arcAndFinish at h
  obtain ⟨t2, ht2, h⟩ := elim_ok h
  by_cases hd : 0 < prop.door_depth
  · rw [if_pos hd] at h
    obtain ⟨ext, hext, hcount⟩ := finishTail_ok K _ _ prop _ m f tr2 h
    refine ⟨[Ev.arc, Ev.arc, Ev.extrudeDoorFace, Ev.translateVerts] ++ ext, ?_, ?_⟩
    · rw [hext, List.append_assoc]
    · rw [List.count_append, hcount]
      decide
  · rw [if_neg hd] at h
    obtain ⟨ext, hext, hcount⟩ := finishTail_ok K _ _ prop _ m f tr2 h
    refine ⟨[Ev.arc, Ev.arc] ++ ext, ?_, ?_⟩
    · rw [hext, List.append_assoc]
    · rw [List.count_append, hcount]
      decide

theorem frameRingMerge_ok {M E F V : Type} [DecidableEq V] (K : Kernel M E F V)
    (bm3 : M) (face3 : F) (top2 : E) (tr : List Ev) (q : M × F × E × List Ev)
    (h : frameRingMerge K bm3 face3 top2 tr = Except.ok q) :
    ∃ ext, q.2.2.2 = tr ++ ext ∧ Ev.recalcNormals ∉ ext := by
  unfold frameRingMerge at h
  obtain ⟨p, hp, hq⟩ := except_map_ok h
  obtain ⟨ext, hext, hmem⟩ := mergeLoopK_trace K _ bm3 tr p hp
  refine ⟨ext, ?_, hmem⟩
  rw [← hq]
  exact hext

theorem frameRingTop2_ok {M E F V : Type} [DecidableEq V] (K : Kernel M E F V)
    (bm3 : M) (face3 : F) (tr : List Ev) (q : M × F × E × List Ev)
    (h : frameRingTop2 K bm3 face3 tr = Except.ok q) :
    ∃ ext, q.2.2.2 = tr ++ ext ∧ Ev.recalcNormals ∉ ext := by
  unfold frameRingTop2 at h
  obtain ⟨top2, _, h⟩ := elim_ok h
  exact frameRingMerge_ok K bm3 face3 top2 tr q h

theorem frameRingCommon_ok {M E F V : Type} [DecidableEq F] [DecidableEq V]
    (K : Kernel M E F V) (bm3 : M) (es : List E) (tr : List Ev)
    (q : M × F × E × List Ev) (h : frameRingCommon K bm3 es tr = Except.ok q) :
    ∃ ext, q.2.2.2 = tr ++ ext ∧ Ev.recalcNormals ∉ ext := by
  match es with
  | [] => simp [frameRingCommon] at h
  | [e0] => simp [frameRingCommon] at h
  | e0 :: e1 :: rest =>
    simp only [frameRingCommon] at h
    obtain ⟨face3, _, h⟩ := elim_ok h
    exact frameRingTop2_ok K bm3 face3 tr q h

theorem frameRingSplit_ok {M E F V : Type} [DecidableEq F] [DecidableEq V]
    (K : Kernel M E F V) (bm2 : M) (face2 : F) (prop : DoorProp) (tr : List Ev)
    (q : M × F × E × List Ev) (h : frameRingSplit K bm2 face2 prop tr = Except.ok q) :
    ∃ ext, q.2.2.2 = tr ++ ext ∧ Ev.recalcNormals ∉ ext := by
  unfold frameRingSplit at h
  obtain ⟨ext, hext, hmem⟩ := frameRingCommon_ok K _ _ _ q h
  refine ⟨Ev.splitVertical :: ext, ?_, ?_⟩
  · rw [hext, List.append_assoc]
    rfl
  · simp only [List.mem_cons, not_or]
    exact ⟨by simp, hmem⟩

theorem frameRingFrameFace_ok {M E F V : Type} [DecidableEq F] [DecidableEq V]
    (K : Kernel M E F V) (bm2 : M) (top_edge : E) (prop : DoorProp) (tr : List Ev)
    (q : M × F × E × List Ev)
    (h : frameRingFrameFace K bm2 top_edge prop tr = Except.ok q) :
    ∃ ext, q.2.2.2 = tr ++ ext ∧ Ev.recalcNormals ∉ ext := by
  unfold frameRingFrameFace at h
  obtain ⟨face2, _, h⟩ := elim_ok h
  exact frameRingSplit_ok K bm2 face2 prop tr q h

theorem frameRingStage_ok {M E F V : Type} [DecidableEq F] [DecidableEq V]
    (K : Kernel M E F V) (bm1 : M) (face1 : F) (normal : Vec3) (prop : DoorProp)
    (tr : List Ev) (q : M × F × E × List Ev)
    (h : frameRingStage K bm1 face1 normal prop tr = Except.ok q) :
    ∃ ext, q.2.2.2 = tr ++ ext ∧ Ev.recalcNormals ∉ ext := by
  unfold frameRingStage at h
  obtain ⟨ext, hext, hmem⟩ := frameRingFrameFace_ok K _ _ prop _ q h
  refine ⟨Ev.splitTopEdge :: ext, ?_, ?_⟩
  · rw [hext, List.append_assoc]
    rfl
  · simp only [List.mem_cons, not_or]
    exact ⟨by simp, hmem⟩

theorem cdfTop_ok {M E F V : Type} [DecidableEq F] [DecidableEq V]
    (K : Kernel M E F V) (bm1 : M) (face1 : F) (prop : DoorProp) (tr0 : List Ev)
    (m : M) (f : F) (tr : List Ev)
    (h : cdfTop K bm1 face1 prop tr0 = Except.ok (m, f, tr)) :
    ∃ ext, tr = tr0 ++ ext ∧ ext.count Ev.recalcNormals = 1 := by
  unfold cdfTop at h
  obtain ⟨top, _, h⟩ := elim_ok h
  by_cases ht : 0 < prop.frame_thickness
  · rw [if_pos ht] at h
    obtain ⟨q, hq, h⟩ := except_bind_ok h
    obtain ⟨ext1, hext1, hmem1⟩ := frameRingStage_ok K bm1 face1 _ prop tr0 q hq
    obtain ⟨ext2, hext2, hcount2⟩ :=
      arcAndFinish_ok K q.1 q.2.1 top (some q.2.2.1) _ prop q.2.2.2 m f tr h
    refine ⟨ext1 ++ ext2, ?_, ?_⟩
    · rw [hext2, hext1, List.append_assoc]
    · rw [List.count_append, hcount2, List.count_eq_zero.mpr hmem1]
  · rw [if_neg ht] at h
    exact arcAndFinish_ok K bm1 face1 top none _ prop tr0 m f tr h

theorem create_door_frame_ok_shape {M E F V : Type} [DecidableEq F] [DecidableEq V]
    (K : Kernel M E F V) (bm : M) (face : F) (prop : DoorProp) (m : M) (f : F)
    (tr : List Ev) (h : create_door_frame K bm face prop = Except.ok (m, f, tr)) :
    ∃ ext, tr = Ev.dissolveEdges
        (floorRemovalEdges (K.faceEdges bm face) (K.edgeMedianZ bm)).length true :: ext ∧
      ext.count Ev.recalcNormals = 1 := by
  unfold create_door_frame at h
  obtain ⟨face1, _, h⟩ := elim_ok h
  obtain ⟨ext, hext, hcount⟩ := cdfTop_ok K _ face1 prop _ m f tr h
  exact ⟨ext, by rw [hext]; rfl, hcount⟩

/-- C10: every run of `create_door_frame` that reaches its final phase (i.e.
returns successfully) records exactly one `recalc_face_normals` call on the
trace, unconditionally — including when `door_depth = 0` and
`frame_depth = 0`, where no depth extrusion happens at all. -/
theorem create_door_frame_recalc_once {M E F V : Type} [DecidableEq F] [DecidableEq V]
    (K : Kernel M E F V) (bm : M) (face : F) (prop : DoorProp) (m : M) (f : F)
    (tr : List Ev) (h : create_door_frame K bm face prop = Except.ok (m, f, tr)) :
    tr.count Ev.recalcNormals = 1 := by
  obtain ⟨ext, hext, hcount⟩ := create_door_frame_ok_shape K bm face prop m f tr h
  have hb : (Ev.recalcNormals ==
      Ev.dissolveEdges
        (floorRemovalEdges (K.faceEdges bm face) (K.edgeMedianZ bm)).length true) = false :=
    rfl
  have hb2 : (Ev.dissolveEdges
      (floorRemovalEdges (K.faceEdges bm face) (K.edgeMedianZ bm)).length true ==
      Ev.recalcNormals) = false := rfl
  rw [hext]
  simp [List.count_cons, hb, hb2, hcount]

/-- C1: with `frame_thickness = 0` the builder skips the frame-ring block, so
`top2` is never assigned, and evaluating the list display `[top, top2]` of
the arc loop raises `UnboundLocalError` — no edge is arched and the call does
not complete. -/
theorem create_door_frame_zero_thickness_error :
    create_door_frame KUnit () 0 ⟨0, 0, 0, ⟨4, 1, 0⟩⟩ =
      Except.error "UnboundLocalError: local variable top2 referenced before assignment" :=
  rfl

/-- Witness for C10: a successful concrete run with `frame_thickness = 1`,
`door_depth = 0` and `frame_depth = 0` whose trace holds exactly one
normals-recalculation event. -/
theorem create_door_frame_recalc_once_witness :
    ([Ev.dissolveEdges 1 true, Ev.splitTopEdge, Ev.splitVertical, Ev.arc, Ev.arc,
      Ev.recalcNormals] : List Ev).count Ev.recalcNormals = 1 :=
  create_door_frame_recalc_once KUnit () 0 ⟨1, 0, 0, ⟨4, 1, 0⟩⟩ () 2
    [Ev.dissolveEdges 1 true, Ev.splitTopEdge, Ev.splitVertical, Ev.arc, Ev.arc,
     Ev.recalcNormals] (by rfl)

/-- C6: the floor-removal step passes exactly one edge — an edge of the face
minimizing the median's vertical coordinate — to the dissolve operation with
`use_verts=True` (the trace's first event), and the merged face is
re-acquired by querying the post-dissolve mesh for a face carrying the
highest index, never by reusing the pre-dissolve handle. -/
theorem create_door_frame_floor_removal :
    (∀ (E : Type) (edges : List E) (medianZ : E → ℚ), edges ≠ [] →
      ∃ e, floorRemovalEdges edges medianZ = [e] ∧ e ∈ edges ∧
        ∀ x ∈ edges, medianZ e ≤ medianZ x) ∧
    (∀ (F : Type) (faces : List F) (indexOf : F → Nat) (f : F),
      face_by_highest_index faces indexOf = some f →
      f ∈ faces ∧ indexOf f = faces.length - 1) ∧
    (∀ (M E F V : Type) [DecidableEq F] [DecidableEq V] (K : Kernel M E F V)
      (bm : M) (face : F) (prop : DoorProp) (m : M) (f : F) (tr : List Ev),
      create_door_frame K bm face prop = Except.ok (m, f, tr) →
      tr.head? = some (Ev.dissolveEdges
        (floorRemovalEdges (K.faceEdges bm face) (K.edgeMedianZ bm)).length true)) := by
  refine ⟨?_, ?_, ?_⟩
  · intro E edges medianZ hne
    cases hs : sortByKey edges medianZ with
    | nil =>
        have hp := sortByKey_perm edges medianZ
        rw [hs] at hp
        exact absurd hp.symm.eq_nil hne
    | cons a t =>
        obtain ⟨hmem, hmin⟩ := sortByKey_head_min hs
        refine ⟨a, ?_, hmem, hmin⟩
        unfold floorRemovalEdges
        rw [hs]
        rfl
  · intro F faces indexOf f h
    unfold face_by_highest_index at h
    have hf := List.mem_of_getLast?_eq_some h
    have hm := List.mem_filter.mp hf
    exact ⟨hm.1, of_decide_eq_true hm.2⟩
  · intro M E F V dF dV K bm face prop m f tr h
    obtain ⟨ext, hext, _⟩ := create_door_frame_ok_shape K bm face prop m f tr h
    rw [hext]
    rfl

/-- Witness for C6 on concrete data: a three-edge face keyed by its median
heights, a three-face mesh for the index query, and the concrete kernel run
of C10's witness. -/
theorem create_door_frame_floor_removal_witness :
    (∃ e, floorRemovalEdges [(5 : ℚ), 3, 4] (fun x => x) = [e] ∧
      e ∈ [(5 : ℚ), 3, 4] ∧ ∀ x ∈ [(5 : ℚ), 3, 4], e ≤ x) ∧
    ((10 : ℕ) ∈ [8, 9, 10] ∧ (fun x : ℕ => x - 8) 10 = [8, 9, 10].length - 1) ∧
    ([Ev.dissolveEdges 1 true, Ev.splitTopEdge, Ev.splitVertical, Ev.arc, Ev.arc,
      Ev.recalcNormals] : List Ev).head? = some (Ev.dissolveEdges 1 true) :=
  ⟨create_door_frame_floor_removal.1 ℚ [5, 3, 4] (fun x => x) (by decide),
   create_door_frame_floor_removal.2.1 ℕ [8, 9, 10] (fun x => x - 8) 10 (by rfl),
   create_door_frame_floor_removal.2.2 Unit Nat Nat Nat KUnit () 0 ⟨1, 0, 0, ⟨4, 1, 0⟩⟩
     () 2 [Ev.dissolveEdges 1 true, Ev.splitTopEdge, Ev.splitVertical, Ev.arc, Ev.arc,
       Ev.recalcNormals] (by rfl)⟩

/-- C8: every selection of the Frame & Arch Builder is a deterministic
function of the mesh state: a sorted-by-height head is a minimizer and its
last entry a maximizer of the key, `min(..., key=...)` returns a minimizer,
and the `[-1]` pick from the mullion edges' common-face set does not depend
on the set's enumeration order whenever that common face is unique. -/
theorem create_door_frame_selection_determinism :
    (∀ (E : Type) (l : List E) (key : E → ℚ) (a : E) (t : List E),
      sortByKey l key = a :: t → a ∈ l ∧ ∀ x ∈ l, key a ≤ key x) ∧
    (∀ (E : Type) (l : List E) (key : E → ℚ) (m : E),
      (sortByKey l key).getLast? = some m → m ∈ l ∧ ∀ x ∈ l, key x ≤ key m) ∧
    (∀ (F : Type) (l : List F) (key : F → ℚ) (m : F),
      minByKey l key = some m → m ∈ l ∧ ∀ x ∈ l, key m ≤ key x) ∧
    (∀ (F : Type) (common : List F) (f : F) (p1 p2 : List F),
      common = [f] → List.Perm p1 common → List.Perm p2 common →
      mullionCommonFace p1 = mullionCommonFace p2 ∧ mullionCommonFace p1 = some f) := by
  refine ⟨?_, ?_, ?_, ?_⟩
  · intro E l key a t h
    exact sortByKey_head_min h
  · intro E l key m h
    exact sortByKey_getLast?_max h
  · intro F l key m h
    exact minByKey_spec h
  · intro F common f p1 p2 hc h1 h2
    subst hc
    have e1 : p1 = [f] := List.perm_singleton.mp h1
    have e2 : p2 = [f] := List.perm_singleton.mp h2
    subst e1
    subst e2
    exact ⟨rfl, rfl⟩

/-- Witness for C8 on concrete lists. -/
theorem create_door_frame_selection_determinism_witness :
    ((1 : ℚ) ∈ [3, 1, 2] ∧ ∀ x ∈ [(3 : ℚ), 1, 2], 1 ≤ x) ∧
    ((3 : ℚ) ∈ [3, 1, 2] ∧ ∀ x ∈ [(3 : ℚ), 1, 2], x ≤ 3) ∧
    ((1 : ℚ) ∈ [3, 1, 2] ∧ ∀ x ∈ [(3 : ℚ), 1, 2], 1 ≤ x) ∧
    (mullionCommonFace [(7 : ℕ)] = mullionCommonFace [7] ∧
      mullionCommonFace [(7 : ℕ)] = some 7) :=
  ⟨create_door_frame_selection_determinism.1 ℚ [3, 1, 2] (fun x => x) 1 [2, 3] (by decide),
   create_door_frame_selection_determinism.2.1 ℚ [3, 1, 2] (fun x => x) 3 (by decide),
   create_door_frame_selection_determinism.2.2.1 ℚ [3, 1, 2] (fun x => x) 1 (by decide),
   create_door_frame_selection_determinism.2.2.2 ℕ [7] 7 [7] [7] rfl (List.Perm.refl _)
     (List.Perm.refl _)⟩

theorem option_elim_some {α β : Type} {o : Option α} {g : α → Option β} {b : β}
    (h : o.elim none g = some b) : ∃ a, o = some a ∧ g a = some b := by
  cases o with
  | none => simp at h
  | some a => exact ⟨a, rfl, by simpa using h⟩

theorem delete_bottom_face_some (m : CMesh) (f : MFace) (m3 : CMesh)
    (h : delete_bottom_face m f = some m3) :
    ∃ be hid,
      minByKey (filter_horizontal_edges m (faceEdgePairs f) f.normal)
        (fun e => (calc_edge_median m e).z) = some be ∧
      minByKey (edgeLinkFaces m be) (fun F => (calc_center_median m F).z) = some hid ∧
      m3 = { verts := m.verts, faces := m.faces.erase hid } := by
  unfold delete_bottom_face at h
  obtain ⟨be, hbe, h⟩ := option_elim_some h
  obtain ⟨hid, hhid, h⟩ := option_elim_some h
  exact ⟨be, hid, hbe, hhid, (Option.some.injEq _ _ ▸ h).symm⟩

theorem translate_list_getD (idxs : List Nat) (vec : Vec3) :
    ∀ (verts : List Vec3) (start i : Nat), i < verts.length →
      (translate_list idxs vec verts start).getD i ⟨0, 0, 0⟩ =
        if (start + i) ∈ idxs then (verts.getD i ⟨0, 0, 0⟩).add vec
        else verts.getD i ⟨0, 0, 0⟩
  | [], start, i, h => absurd h (by simp)
  | p :: rest, start, 0, h => by
      simp only [translate_list, List.getD_cons_zero, Nat.add_zero]
  | p :: rest, start, i + 1, h => by
      simp only [translate_list, List.getD_cons_succ]
      rw [translate_list_getD idxs vec rest (start + 1) i (by simpa using h)]
      have hs : start + 1 + i = start + (i + 1) := by omega
      rw [hs]

theorem extrude_loop_getD (m : CMesh) (face : MFace) (i : Nat)
    (hi : i < face.loop.length) :
    (extrude_discrete_face m face).2.loop.getD i 0 = m.verts.length + i := by
  show ((List.range face.loop.length).map (fun j => m.verts.length + j)).getD i 0 =
    m.verts.length + i
  rw [List.getD_eq_getElem?_getD, List.getElem?_map,
    List.getElem?_eq_getElem (by simpa using hi)]
  simp [List.getElem_range]

theorem extrude_loop_mem (m : CMesh) (face : MFace) (j : Nat) :
    j ∈ (extrude_discrete_face m face).2.loop ↔
      m.verts.length ≤ j ∧ j < m.verts.length + face.loop.length := by
  show j ∈ (List.range face.loop.length).map (fun i => m.verts.length + i) ↔ _
  simp only [List.mem_map, List.mem_range]
  constructor
  · rintro ⟨i, hi, rfl⟩
    omega
  · intro h
    exact ⟨j - m.verts.length, by omega, by omega⟩

theorem extrude_translate_vpos (m : CMesh) (face : MFace) (d : ℚ) (i : Nat)
    (hi : i < face.loop.length) :
    vpos (extrude_translate m face d).1 (m.verts.length + i) =
      (vpos m (face.loop.getD i 0)).add (face.normal.smul d) := by
  show (translate_list (extrude_discrete_face m face).2.loop
      ((extrude_discrete_face m face).2.normal.smul d)
      (m.verts ++ face.loop.map (vpos m)) 0).getD (m.verts.length + i) ⟨0, 0, 0⟩ = _
  rw [translate_list_getD _ _ _ 0 (m.verts.length + i)
    (by simp only [List.length_append, List.length_map]; omega)]
  rw [show 0 + (m.verts.length + i) = m.verts.length + i from by omega]
  rw [if_pos ((extrude_loop_mem m face _).mpr ⟨by omega, by omega⟩)]
  congr 1
  rw [List.getD_eq_getElem?_getD, List.getElem?_append_right (by omega)]
  rw [show m.verts.length + i - m.verts.length = i from by omega]
  rw [List.getElem?_map, List.getElem?_eq_getElem hi]
  rw [show face.loop.getD i 0 = face.loop[i] from by
    rw [List.getD_eq_getElem?_getD, List.getElem?_eq_getElem hi]; rfl]
  rfl

/-- C7: when `frame_depth` is zero the incoming face is returned directly;
when it is nonzero the face is extruded by `-frame_depth`, the new face's
vertices are displaced from the original face's corresponding vertices by
exactly that depth along the face normal, the lowest-by-center face adjacent
to the lowest horizontal bottom edge is deleted, and the new frontier face
is returned. -/
theorem frame_depth_step_spec :
    (∀ (m : CMesh) (face : MFace), frame_depth_step m face 0 = some (m, face)) ∧
    (∀ (m : CMesh) (face : MFace) (d : ℚ), d ≠ 0 →
      frame_depth_step m face d = extrude_face_and_delete_bottom m face (-d)) ∧
    (∀ (m : CMesh) (face : MFace) (d : ℚ) (m3 : CMesh) (f : MFace),
      extrude_face_and_delete_bottom m face d = some (m3, f) →
      f.normal = face.normal ∧ f.loop.length = face.loop.length ∧
      ∀ i, i < face.loop.length →
        vpos m3 (f.loop.getD i 0) =
          (vpos m (face.loop.getD i 0)).add (face.normal.smul d)) ∧
    (∀ (m : CMesh) (face : MFace) (d : ℚ) (m3 : CMesh) (f : MFace),
      extrude_face_and_delete_bottom m face d = some (m3, f) →
      ∃ be hid,
        be ∈ filter_horizontal_edges (extrude_translate m face d).1
          (faceEdgePairs f) f.normal ∧
        (∀ e ∈ filter_horizontal_edges (extrude_translate m face d).1
            (faceEdgePairs f) f.normal,
          (calc_edge_median (extrude_translate m face d).1 be).z ≤
            (calc_edge_median (extrude_translate m face d).1 e).z) ∧
        hid ∈ edgeLinkFaces (extrude_translate m face d).1 be ∧
        (∀ F ∈ edgeLinkFaces (extrude_translate m face d).1 be,
          (calc_center_median (extrude_translate m face d).1 hid).z ≤
            (calc_center_median (extrude_translate m face d).1 F).z) ∧
        m3.faces = (extrude_translate m face d).1.faces.erase hid ∧
        m3.verts = (extrude_translate m face d).1.verts) := by
  refine ⟨?_, ?_, ?_, ?_⟩
  · intro m face
    simp [frame_depth_step]
  · intro m face d hd
    rw [frame_depth_step, if_pos hd]
  · intro m face d m3 f h
    unfold extrude_face_and_delete_bottom at h
    rw [Option.map_eq_some'] at h
    obtain ⟨m3', hdel, heq⟩ := h
    have hm3 : m3' = m3 := congrArg Prod.fst heq
    have hf : (extrude_translate m face d).2 = f := congrArg Prod.snd heq
    obtain ⟨be, hid, hbe, hhid, hm3eq⟩ :=
      delete_bottom_face_some _ _ m3' hdel
    rw [hm3] at hm3eq
    refine ⟨by rw [← hf]; rfl, by rw [← hf]; simp [extrude_translate,
      extrude_discrete_face], ?_⟩
    intro i hi
    rw [← hf]
    have hloop : (extrude_translate m face d).2.loop.getD i 0 =
        m.verts.length + i := extrude_loop_getD m face i hi
    rw [hloop]
    have hverts : vpos m3 (m.verts.length + i) =
        vpos (extrude_translate m face d).1 (m.verts.length + i) := by
      rw [hm3eq]
      rfl
    rw [hverts]
    exact extrude_translate_vpos m face d i hi
  · intro m face d m3 f h
    unfold extrude_face_and_delete_bottom at h
    rw [Option.map_eq_some'] at h
    obtain ⟨m3', hdel, heq⟩ := h
    have hm3 : m3' = m3 := congrArg Prod.fst heq
    have hf : (extrude_translate m face d).2 = f := congrArg Prod.snd heq
    obtain ⟨be, hid, hbe, hhid, hm3eq⟩ := delete_bottom_face_some _ _ m3' hdel
    subst hm3
    subst hf
    obtain ⟨hbemem, hbemin⟩ := minByKey_spec hbe
    obtain ⟨hhidmem, hhidmin⟩ := minByKey_spec hhid
    exact ⟨be, hid, hbemem, hbemin, hhidmem, hhidmin,
      by rw [hm3eq], by rw [hm3eq]⟩

/-- Witness for C7: the identity branch, the extrusion branch at depth `1`,
and the exact displacement of the first new vertex on a concrete run. -/
theorem frame_depth_step_spec_witness :
    frame_depth_step c7mesh c7face 0 = some (c7mesh, c7face) ∧
    frame_depth_step c7mesh c7face 1 = extrude_face_and_delete_bottom c7mesh c7face (-1) ∧
    vpos c7meshAfter (c7faceAfter.loop.getD 0 0) =
      (vpos c7mesh (c7face.loop.getD 0 0)).add (c7face.normal.smul (-1)) :=
  ⟨frame_depth_step_spec.1 c7mesh c7face,
   frame_depth_step_spec.2.1 c7mesh c7face 1 (by norm_num),
   (frame_depth_step_spec.2.2.1 c7mesh c7face (-1) c7meshAfter c7faceAfter
     (by with_unfolding_all rfl)).2.2 0 (by decide)⟩

end DoorTypes
